import Mathlib

/-
Verification development for the AdhaanLive coordination core.

Shallow embedding of:
 - src/core/detector.py       (start/end detection loops, ambient threshold)
 - src/core/stream_refresher.py (smart_refresh_loop iteration)
 - src/core/playback.py       (PlaybackManager.start)
 - src/core/prayer_scheduler.py (prayer_scheduler_loop cycle)
 - src/utils/adhaan_logger.py  (log_event duration bookkeeping)

Audio levels (rms values, thresholds) are modelled as rationals; one list
element stands for one ~1 second PCM frame read (`bytes_per_second` bytes),
matching the read granularity of the Python loops.
-/

namespace AdhaanLive

/-! ### Detector: adaptive threshold (src/core/detector.py, detect_audio_start) -/

/-- Initial value of `AMBIENT_STATE["rms"]` (detector.py line 23): the
conservative bootstrap ambient RMS (0.0003) in place before any ambient
sample has been taken. -/
def ambientInitRms : ℚ := 3 / 10000

/-- Default `threshold` parameter of `detect_audio_start` / `detect_audio_end`. -/
def defaultThreshold : ℚ := 1 / 20

/-- Threshold computed on entry to `detect_audio_start`:
`effective_threshold = max(ambient_rms * 3, threshold * 0.4)`. -/
def effective_threshold (ambient_rms threshold : ℚ) : ℚ :=
  max (ambient_rms * 3) (threshold * (2 / 5))

/-- Threshold formula as the specification words it (spec section 4.1):
`max(ambient.rms * K, FLOOR)` with K = 3 and FLOOR = 0.05.  Kept separate
from `effective_threshold` (translated from the code) for comparison. -/
def effective_threshold_as_specified (ambient_rms : ℚ) : ℚ :=
  max (ambient_rms * 3) (1 / 20)

/-! ### Detector: per-frame state updates -/

/-- One `consecutive_high` update in `detect_audio_start`:
`if rms > effective_threshold: consecutive_high += 1.0
 else: consecutive_high = max(0.0, consecutive_high - 0.5)`. -/
def startStep (effThr c r : ℚ) : ℚ :=
  if effThr < r then c + 1 else max 0 (c - 1 / 2)

/-- One `silence_counter` update in `detect_audio_end`:
`if rms < threshold: silence_counter += 1 else: silence_counter = 0`. -/
def endStep (thr : ℚ) (s : ℕ) (r : ℚ) : ℕ :=
  if r < thr then s + 1 else 0

/-! ### Generic detection loop

Both `detect_audio_start` and `detect_audio_end` are a `while True` loop:
read one frame, update an accumulator, and when a trigger predicate on the
accumulator holds, read up to `post_buffer_secs` tail chunks, write one log
event, and return `True`; if the stream ends before the trigger, return
`False` with no event.  `detectRun` captures that shape once, over the list
of per-frame rms values actually read. -/

structure RunResult (σ : Type) where
  events : ℕ
  fired : Bool
  consumed : ℕ
  tail : ℕ
  final : σ
  deriving Repr, DecidableEq

def detectRun {σ : Type} (step : σ → ℚ → σ) (trig : σ → Bool) (postBuf : ℕ) :
    σ → List ℚ → RunResult σ
  | s, [] => ⟨0, false, 0, 0, s⟩
  | s, r :: rest =>
    let s2 := step s r
    if trig s2 then ⟨1, true, 1, min postBuf rest.length, s2⟩
    else
      let res := detectRun step trig postBuf s2 rest
      ⟨res.events, res.fired, res.consumed + 1, res.tail, res.final⟩

/-- `detect_audio_start` on a frame sequence: counter starts at 0, fires when
`consecutive_high >= min_duration_above_threshold` (default 2.0), reads up to
`post_buffer_secs = 5` tail chunks. -/
def runStart (effThr minDur : ℚ) (frames : List ℚ) : RunResult ℚ :=
  detectRun (startStep effThr) (fun c => decide (minDur ≤ c)) 5 0 frames

/-- `detect_audio_end` on a frame sequence: counter starts at 0, fires when
`silence_counter >= required_silence` (default 7), reads up to 5 tail chunks. -/
def runEnd (thr : ℚ) (req : ℕ) (frames : List ℚ) : RunResult ℕ :=
  detectRun (endStep thr) (fun s => decide (req ≤ s)) 5 0 frames

/-- Accumulator value after processing a list of frames. -/
def stateAfter {σ : Type} (step : σ → ℚ → σ) (s : σ) (frames : List ℚ) : σ :=
  frames.foldl step s

theorem stateAfter_cons {σ : Type} (step : σ → ℚ → σ) (s : σ) (r : ℚ) (l : List ℚ) :
    stateAfter step s (r :: l) = stateAfter step (step s r) l := rfl

theorem stateAfter_cons_take {σ : Type} (step : σ → ℚ → σ) (s : σ) (r : ℚ)
    (rest : List ℚ) (n : ℕ) :
    stateAfter step s ((r :: rest).take (n + 1)) =
      stateAfter step (step s r) (rest.take n) := by
  simp [stateAfter]

/-- Structure theorem for the detection loop: if it never fires, no event is
emitted, every frame is consumed, and no prefix accumulator triggers; if it
fires, exactly one event is emitted, at the first frame index whose updated
accumulator triggers, and the tail is up to `postBuf` of the remaining frames. -/
theorem detectRun_spec {σ : Type} (step : σ → ℚ → σ) (trig : σ → Bool)
    (postBuf : ℕ) (s : σ) (frames : List ℚ) :
    ((detectRun step trig postBuf s frames).fired = false →
      (detectRun step trig postBuf s frames).events = 0 ∧
      (detectRun step trig postBuf s frames).consumed = frames.length ∧
      ∀ n < frames.length, trig (stateAfter step s (frames.take (n + 1))) = false) ∧
    ((detectRun step trig postBuf s frames).fired = true →
      (detectRun step trig postBuf s frames).events = 1 ∧
      ∃ i < frames.length,
        (detectRun step trig postBuf s frames).consumed = i + 1 ∧
        trig (stateAfter step s (frames.take (i + 1))) = true ∧
        (detectRun step trig postBuf s frames).tail =
          min postBuf (frames.length - (i + 1)) ∧
        ∀ j < i, trig (stateAfter step s (frames.take (j + 1))) = false) := by
  induction frames generalizing s with
  | nil =>
    constructor
    · intro _
      refine ⟨rfl, rfl, ?_⟩
      intro n hn
      exact absurd hn (Nat.not_lt_zero n)
    · intro h
      simp [detectRun] at h
  | cons r rest ih =>
    by_cases htrig : trig (step s r) = true
    · constructor
      · intro hf
        rw [detectRun] at hf
        simp only [htrig, if_true] at hf
        exact absurd hf (by decide)
      · intro _
        rw [detectRun]
        simp only [htrig, if_true]
        refine ⟨?_, 0, Nat.succ_pos _, ?_, ?_, ?_, ?_⟩
        · simp
        · simp
        · show trig (stateAfter step s (List.take 1 (r :: rest))) = true
          simpa [stateAfter] using htrig
        · simp
        · intro j hj
          exact absurd hj (Nat.not_lt_zero j)
    · have hstep : detectRun step trig postBuf s (r :: rest) =
          ⟨(detectRun step trig postBuf (step s r) rest).events,
           (detectRun step trig postBuf (step s r) rest).fired,
           (detectRun step trig postBuf (step s r) rest).consumed + 1,
           (detectRun step trig postBuf (step s r) rest).tail,
           (detectRun step trig postBuf (step s r) rest).final⟩ := by
        rw [detectRun]
        simp only [htrig, if_false, Bool.false_eq_true]
      constructor
      · intro hf
        rw [hstep] at hf
        obtain ⟨he, hc, hall⟩ := (ih (step s r)).1 hf
        rw [hstep]
        refine ⟨he, by simp [hc], ?_⟩
        intro n hn
        match n with
        | 0 =>
          rw [List.take_one]
          simpa [stateAfter] using eq_false_of_ne_true htrig
        | Nat.succ m =>
          rw [stateAfter_cons_take]
          exact hall m (by simpa using hn)
      · intro hf
        rw [hstep] at hf
        obtain ⟨he, i, hi, hc, ht, htl, hall⟩ := (ih (step s r)).2 hf
        rw [hstep]
        refine ⟨he, i + 1, by simpa using hi, by simp [hc], ?_, ?_, ?_⟩
        · rw [stateAfter_cons_take]
          exact ht
        · simpa using htl
        · intro j hj
          match j with
          | 0 =>
            rw [List.take_one]
            simpa [stateAfter] using eq_false_of_ne_true htrig
          | Nat.succ m =>
            rw [stateAfter_cons_take]
            exact hall m (by omega)

/-! ### Stream refresher (src/core/stream_refresher.py, smart_refresh_loop)

One iteration of the `while True` body, after `time_left` has been computed
from `expiry_time - now`.  `oracle k` is the result of the k-th call to
`get_new_url_func` in this iteration (`none` models the call raising, which
the code catches).  `activatedNow` is the URL passed to `_write_cached_url`
(activation) during the iteration, if any. -/

def PREFETCH_WINDOW : ℚ := 600
def SWAP_CUTOFF : ℚ := 30

/-- Python truthiness of the `next_url` variable (`None` and `""` are falsy). -/
def truthy : Option String → Bool
  | none => false
  | some u => !(u == "")

structure RefreshState where
  cachedUrl : String
  nextUrl : Option String
  prefetchDone : Bool
  deriving Repr, DecidableEq

structure RefreshStep where
  state : RefreshState
  fetchCalls : ℕ
  activatedNow : Option String
  deriving Repr, DecidableEq

def refreshIter (timeLeft : ℚ) (adhaanActive : Bool) (oracle : ℕ → Option String)
    (s : RefreshState) : RefreshStep :=
  -- Prefetch new URL early
  let pf : RefreshState × ℕ :=
    if timeLeft < PREFETCH_WINDOW ∧ s.prefetchDone = false then
      match oracle 0 with
      | some u => ({ s with nextUrl := some u, prefetchDone := true }, 1)
      | none => (s, 1)
    else (s, 0)
  let s1 := pf.1
  let k := pf.2
  -- Safe swap logic
  if s1.prefetchDone = true ∧ truthy s1.nextUrl = true then
    if adhaanActive = false then
      -- swap immediately if safe
      { state := { cachedUrl := s1.nextUrl.getD "", nextUrl := none, prefetchDone := false },
        fetchCalls := k, activatedNow := s1.nextUrl }
    else if timeLeft < SWAP_CUTOFF then
      -- forced swap if token is about to expire
      { state := { cachedUrl := s1.nextUrl.getD "", nextUrl := none, prefetchDone := false },
        fetchCalls := k, activatedNow := s1.nextUrl }
    else
      { state := s1, fetchCalls := k, activatedNow := none }
  -- Emergency refresh if expired
  else if timeLeft ≤ 0 then
    match oracle k with
    | some u => { state := { s1 with cachedUrl := u }, fetchCalls := k + 1, activatedNow := some u }
    | none => { state := s1, fetchCalls := k + 1, activatedNow := none }
  else
    { state := s1, fetchCalls := k, activatedNow := none }

/-! ### Playback manager (src/core/playback.py, PlaybackManager.start)

`procAlive` models `self._proc and self._proc.poll() is None`; when alive the
process renders `currentUrl`.  Actions record, in program order, the process
operations `start` performs: stopping the old process and spawning (via the
runner thread) a process for the new URL. -/

structure PlaybackState where
  procAlive : Bool
  currentUrl : Option String
  retries : ℕ
  deriving Repr, DecidableEq

inductive PlayAction
  | stopProc
  | spawn (url : String)
  deriving Repr, DecidableEq

def playbackStart (s : PlaybackState) (url : String) : PlaybackState × List PlayAction :=
  -- If running on same URL, keep it
  if s.procAlive = true ∧ s.currentUrl = some url then (s, [])
  else
    -- If running on different URL, stop first
    let stopped : PlaybackState × List PlayAction :=
      if s.procAlive = true ∧ s.currentUrl ≠ some url then
        ({ s with procAlive := false }, [PlayAction.stopProc])
      else (s, [])
    -- Reset control state and launch the runner for the new URL
    ({ procAlive := true, currentUrl := some url, retries := 0 },
      stopped.2 ++ [PlayAction.spawn url])

/-- Number of live playback processes in a state (the model has one slot,
matching the single `self._proc` field). -/
def liveProcs (s : PlaybackState) : ℕ := if s.procAlive then 1 else 0

/-! ### Prayer scheduler (src/core/prayer_scheduler.py, prayer_scheduler_loop)

One iteration of the `while True` body.  `prayers` is the loaded table,
`pickName` the name `get_next_prayer` would return for a nonempty table
(it always returns one, via the Fajr / "Unknown" fallbacks), `pickRaises`
models `get_next_prayer` itself raising (caught by the `except`), and
`nameBound` the value of the local variable `name` carried over from earlier
iterations (`none` = never assigned).  The `finally` block always runs
`stop_audio_detection()`, `detection_flag.clear()` and `PLAYBACK.stop()`,
then evaluates the f-string log message that reads `name`: if `name` is
still unbound this raises UnboundLocalError, which escapes the loop. -/

structure SchedCycleResult where
  crashed : Bool
  nameBound : Option String
  cooldownSlept : Bool
  cleanupRan : Bool
  deriving Repr, DecidableEq

def schedulerCycle (prayers : List (String × String)) (pickName : String)
    (pickRaises : Bool) (nameBound : Option String) : SchedCycleResult :=
  -- try block: the only way `name` gets (re)bound is the nonempty-table path
  -- reaching the `name, time_dt = get_next_prayer(prayers)` assignment.
  let nb : Option String :=
    if prayers = [] then nameBound
    else if pickRaises then nameBound
    else some pickName
  -- every try-block exit (continue, normal fall-through, caught exception)
  -- proceeds to the finally block
  match nb with
  | none => { crashed := true, nameBound := none, cooldownSlept := false, cleanupRan := true }
  | some n => { crashed := false, nameBound := some n, cooldownSlept := true, cleanupRan := true }

/-! ### Adhaan event logger (src/utils/adhaan_logger.py, log_event)

`lastStart` models the module-global `_last_start_time`; times are seconds.
The second component of the result is the `duration_seconds` CSV field
(`none` = empty field). -/

def logStep (lastStart : Option ℚ) (event : String) (t : ℚ) : Option ℚ × Option ℚ :=
  if event = "start" then (some t, none)
  else if event = "end" ∧ lastStart.isSome = true then
    (none, some (t - lastStart.getD 0))
  else (lastStart, none)

/-- Duration fields recorded by a sequence of `log_event` calls. -/
def logTraceDurations : Option ℚ → List (String × ℚ) → List (Option ℚ)
  | _, [] => []
  | st, (e, t) :: rest =>
    let p := logStep st e t
    p.2 :: logTraceDurations p.1 rest

/-! ### Shared adhaan_active flag

Modelled from the spec: `is_adhaan_active` and the code that sets and clears
`adhaan_active` are imported from `core.detector` by `stream_refresher.py`
and `prayer_scheduler.py`, and `RuntimeState` declares the flag, but the
definition of `is_adhaan_active` and every write to `adhaan_active` are
missing from src/.  Spec section 4.1: on the IDLE→RECORDING transition the
engine sets `adhaan_active=true`; on end it sets `adhaan_active=false`; on
timeout or abort the session is destroyed and `adhaan_active` cleared
("never leaves adhaan_active stuck true"); at most one session exists. -/

inductive SessionPhase
  | idle
  | recording
  deriving Repr, DecidableEq

structure CoordState where
  session : Option SessionPhase
  adhaanActive : Bool
  deriving Repr, DecidableEq

inductive CoordEvent
  | arm
  | confirmStart
  | endDetected
  | sessionTimeout
  | abortFault
  deriving Repr, DecidableEq

def coordInit : CoordState := ⟨none, false⟩

def coordStep (s : CoordState) : CoordEvent → CoordState
  | .arm =>
    match s.session with
    | none => { session := some .idle, adhaanActive := s.adhaanActive }
    | some _ => s
  | .confirmStart =>
    match s.session with
    | some .idle => { session := some .recording, adhaanActive := true }
    | _ => s
  | .endDetected =>
    match s.session with
    | some .recording => { session := none, adhaanActive := false }
    | _ => s
  | .sessionTimeout => { session := none, adhaanActive := false }
  | .abortFault => { session := none, adhaanActive := false }

inductive CoordReachable : CoordState → Prop
  | init : CoordReachable coordInit
  | step (s : CoordState) (e : CoordEvent) : CoordReachable s → CoordReachable (coordStep s e)

/-! ### Unbounded end detection (claim C2)

`detect_audio_end` viewed over an unending frame source: `silenceCounterAt`
is the value of `silence_counter` after `n` frames, `endFiresWithin` says
the end trigger has fired within the first `n` frames. -/

def silenceCounterAt (thr : ℚ) (frames : ℕ → ℚ) : ℕ → ℕ
  | 0 => 0
  | n + 1 => endStep thr (silenceCounterAt thr frames n) (frames n)

def endFiresWithin (thr : ℚ) (req : ℕ) (frames : ℕ → ℚ) (n : ℕ) : Prop :=
  ∃ i < n, req ≤ silenceCounterAt thr frames (i + 1)

/-- Session cap named by the spec (`MAX_SESSION_SECONDS`, ≈300 s).  No such
constant or elapsed-time check exists anywhere in src/. -/
def specMaxSessionSeconds : ℕ := 300

/-! ### Helper lemmas -/

theorem endStep_loud (thr r : ℚ) (s : ℕ) (h : thr ≤ r) : endStep thr s r = 0 := by
  simp [endStep, not_lt.mpr h]

theorem silenceCounterAt_loud (thr : ℚ) (frames : ℕ → ℚ)
    (h : ∀ i, thr ≤ frames i) : ∀ n, silenceCounterAt thr frames n = 0
  | 0 => rfl
  | n + 1 => by
    rw [silenceCounterAt]
    exact endStep_loud thr (frames n) _ (h n)

theorem detectRun_loud_no_fire (thr : ℚ) (req : ℕ) (hreq : 1 ≤ req)
    (l : List ℚ) (hl : ∀ r ∈ l, thr ≤ r) (s : ℕ) :
    (detectRun (endStep thr) (fun c => decide (req ≤ c)) 5 s l).fired = false := by
  induction l generalizing s with
  | nil => rfl
  | cons r rest ih =>
    rw [detectRun]
    have hz : endStep thr s r = 0 := endStep_loud thr r s (hl r (List.mem_cons_self r rest))
    have htrig : (decide (req ≤ endStep thr s r)) = false := by
      rw [hz]
      simp [Nat.not_le.mpr hreq]
    simp only [htrig, if_false, Bool.false_eq_true]
    exact ih (fun x hx => hl x (List.mem_cons_of_mem r hx)) _

/-- Invariant preservation for the modelled coordination state machine. -/
theorem coordStep_preserves (s : CoordState) (e : CoordEvent)
    (ih : s.adhaanActive = true ↔ s.session = some SessionPhase.recording) :
    (coordStep s e).adhaanActive = true ↔
      (coordStep s e).session = some SessionPhase.recording := by
  cases e with
  | arm =>
    rcases hs : s.session with _ | ph
    · have hact : s.adhaanActive = false := by
        rcases hb : s.adhaanActive with _ | _
        · rfl
        · rw [ih.mp hb] at hs
          cases hs
      simp [coordStep, hs, hact]
    · have hid : coordStep s CoordEvent.arm = s := by simp [coordStep, hs]
      rw [hid]
      exact ih
  | confirmStart =>
    rcases hs : s.session with _ | ph
    · have hid : coordStep s CoordEvent.confirmStart = s := by simp [coordStep, hs]
      rw [hid]
      exact ih
    · cases ph
      · simp [coordStep, hs]
      · have hid : coordStep s CoordEvent.confirmStart = s := by simp [coordStep, hs]
        rw [hid]
        exact ih
  | endDetected =>
    rcases hs : s.session with _ | ph
    · have hid : coordStep s CoordEvent.endDetected = s := by simp [coordStep, hs]
      rw [hid]
      exact ih
    · cases ph
      · have hid : coordStep s CoordEvent.endDetected = s := by simp [coordStep, hs]
        rw [hid]
        exact ih
      · simp [coordStep, hs]
  | sessionTimeout => simp [coordStep]
  | abortFault => simp [coordStep]

/-! ### Claim theorems -/

/-- C1: at every reachable state of the (spec-modelled) coordination engine,
`adhaan_active` is true iff the detection session is in the RECORDING phase:
confirming a start sets it, and every end, timeout, or abort clears it, so no
operation leaves it stuck true outside RECORDING. -/
theorem adhaan_active_iff_recording (s : CoordState) (h : CoordReachable s) :
    s.adhaanActive = true ↔ s.session = some SessionPhase.recording := by
  induction h with
  | init => simp [coordInit]
  | step s e hr ih => exact coordStep_preserves s e ih

theorem adhaan_active_iff_recording_witness :
    ((coordStep (coordStep coordInit CoordEvent.arm) CoordEvent.confirmStart).adhaanActive = true ↔
      (coordStep (coordStep coordInit CoordEvent.arm) CoordEvent.confirmStart).session =
        some SessionPhase.recording) :=
  adhaan_active_iff_recording _
    (CoordReachable.step _ _ (CoordReachable.step _ _ CoordReachable.init))

/-- C2: the claim says an indefinitely loud source still ends the session
within `MAX_SESSION_SECONDS + REQUIRED_SILENCE_SECONDS`.  The code has no
session cap at all: on frames that stay at or above the silence threshold,
`silence_counter` is reset on every frame, so the end trigger never fires —
for any horizon `n`, not just 300 + 7 — and a finite all-loud run emits no
end event.  This theorem evaluates the code at the failing input. -/
theorem end_detection_unbounded_on_loud (thr : ℚ) (req : ℕ) (frames : ℕ → ℚ)
    (hreq : 1 ≤ req) (hloud : ∀ i, thr ≤ frames i) (n : ℕ) (l : List ℚ)
    (hl : ∀ r ∈ l, thr ≤ r) :
    silenceCounterAt thr frames n = 0 ∧
    ¬ endFiresWithin thr req frames n ∧
    (runEnd thr req l).fired = false ∧
    (runEnd thr req l).events = 0 := by
  have hz := silenceCounterAt_loud thr frames hloud
  have hfired : (runEnd thr req l).fired = false :=
    detectRun_loud_no_fire thr req hreq l hl 0
  refine ⟨hz n, ?_, hfired, ?_⟩
  · rintro ⟨i, _, hle⟩
    rw [hz (i + 1)] at hle
    exact absurd hle (Nat.not_le.mpr hreq)
  · exact ((detectRun_spec (endStep thr) (fun c => decide (req ≤ c)) 5 0 l).1 hfired).1

theorem end_detection_unbounded_on_loud_witness :
    silenceCounterAt defaultThreshold (fun _ => 1) (specMaxSessionSeconds + 7) = 0 ∧
    ¬ endFiresWithin defaultThreshold 7 (fun _ => 1) (specMaxSessionSeconds + 7) ∧
    (runEnd defaultThreshold 7 [1, 1, 1]).fired = false ∧
    (runEnd defaultThreshold 7 [1, 1, 1]).events = 0 :=
  end_detection_unbounded_on_loud defaultThreshold 7 (fun _ => 1) (by norm_num)
    (fun _ => by norm_num [defaultThreshold]) (specMaxSessionSeconds + 7) [1, 1, 1]
    (by intro r hr; fin_cases hr <;> norm_num [defaultThreshold])

/-- C3 counterexample: an iteration with an already-expired activated
endpoint (time-left = -1) and a pending prefetched endpoint performs no
fetch at all — `get_new_url_func` is never called — and activates the
pending endpoint instead; the claim says an emergency fetch happens
regardless of a pending endpoint existing. -/
theorem emergency_fetch_counterexample :
    (refreshIter (-1) true (fun _ => some "fresh") ⟨"old", some "pending", true⟩).fetchCalls = 0 ∧
    (refreshIter (-1) true (fun _ => some "fresh") ⟨"old", some "pending", true⟩).state.cachedUrl
      = "pending" ∧
    (refreshIter (-1) true (fun _ => some "fresh") ⟨"old", some "pending", true⟩).activatedNow
      ≠ some "fresh" := by
  refine ⟨?_, ?_, ?_⟩ <;> decide

/-- C3 amended: when the activated endpoint's time-left is negative, the
iteration always ends with a newly activated URL regardless of
`adhaan_active`, but an emergency fetch only happens when no pending
prefetched endpoint exists: with a pending endpoint, it is activated with no
fetch; with none, the iteration fetches (prefetch, falling back to the
emergency branch when the first fetch fails) and activates the result. -/
theorem emergency_refresh_amended (tl : ℚ) (a : Bool) (orc : ℕ → Option String)
    (s : RefreshState) (u : String) (htl : tl < 0) :
    (s.prefetchDone = true → truthy s.nextUrl = true →
      (refreshIter tl a orc s).fetchCalls = 0 ∧
      (refreshIter tl a orc s).activatedNow = s.nextUrl) ∧
    (s.prefetchDone = false → orc 0 = some u → u ≠ "" →
      (refreshIter tl a orc s).fetchCalls = 1 ∧
      (refreshIter tl a orc s).activatedNow = some u ∧
      (refreshIter tl a orc s).state.cachedUrl = u) ∧
    (s.prefetchDone = false → orc 0 = none → orc 1 = some u →
      (refreshIter tl a orc s).fetchCalls = 2 ∧
      (refreshIter tl a orc s).activatedNow = some u ∧
      (refreshIter tl a orc s).state.cachedUrl = u) := by
  have htl30 : tl < SWAP_CUTOFF := lt_trans htl (by norm_num [SWAP_CUTOFF])
  have htl0 : tl ≤ 0 := le_of_lt htl
  have htl600 : tl < PREFETCH_WINDOW := lt_trans htl (by norm_num [PREFETCH_WINDOW])
  refine ⟨?_, ?_, ?_⟩
  · intro hp ht
    cases a <;>
      simp [refreshIter, hp, ht, htl30, htl600]
  · intro hp h0 hu
    have ht : truthy (some u) = true := by simp [truthy, hu]
    cases a <;>
      simp [refreshIter, hp, h0, ht, htl30, htl600]
  · intro hp h0 h1
    cases a <;>
      simp [refreshIter, hp, h0, h1, htl30, htl600, htl0]

theorem emergency_refresh_amended_witness :
    (refreshIter (-1) true (fun _ => some "fresh") ⟨"old", none, false⟩).fetchCalls = 1 ∧
    (refreshIter (-1) true (fun _ => some "fresh") ⟨"old", none, false⟩).activatedNow
      = some "fresh" ∧
    (refreshIter (-1) true (fun _ => some "fresh") ⟨"old", none, false⟩).state.cachedUrl
      = "fresh" :=
  (emergency_refresh_amended (-1) true (fun _ => some "fresh") ⟨"old", none, false⟩ "fresh"
    (by norm_num)).2.1 rfl rfl (by decide)

/-- C4: with `adhaan_active = true` and a pending prefetched endpoint, an
iteration with time-left ≥ SWAP_CUTOFF does not activate it and leaves the
state unchanged; the first iteration with time-left < SWAP_CUTOFF
force-activates it; and with `adhaan_active = false` a pending endpoint is
activated in the same iteration. -/
theorem safe_swap_rule (tl : ℚ) (orc : ℕ → Option String) (s : RefreshState)
    (hp : s.prefetchDone = true) (ht : truthy s.nextUrl = true) :
    (SWAP_CUTOFF ≤ tl →
      (refreshIter tl true orc s).activatedNow = none ∧
      (refreshIter tl true orc s).state = s ∧
      (refreshIter tl true orc s).fetchCalls = 0) ∧
    (tl < SWAP_CUTOFF →
      (refreshIter tl true orc s).activatedNow = s.nextUrl ∧
      (refreshIter tl true orc s).state.prefetchDone = false ∧
      (refreshIter tl true orc s).state.nextUrl = none) ∧
    ((refreshIter tl false orc s).activatedNow = s.nextUrl ∧
      (refreshIter tl false orc s).state.prefetchDone = false ∧
      (refreshIter tl false orc s).state.nextUrl = none) := by
  refine ⟨?_, ?_, ?_⟩
  · intro h30
    simp [refreshIter, hp, ht, not_lt.mpr h30]
  · intro h30
    simp [refreshIter, hp, ht, h30]
  · simp [refreshIter, hp, ht]

theorem safe_swap_rule_witness :
    ((refreshIter 100 true (fun _ => some "fresh") ⟨"cur", some "pend", true⟩).activatedNow
        = none ∧
      (refreshIter 100 true (fun _ => some "fresh") ⟨"cur", some "pend", true⟩).state
        = ⟨"cur", some "pend", true⟩ ∧
      (refreshIter 100 true (fun _ => some "fresh") ⟨"cur", some "pend", true⟩).fetchCalls
        = 0) ∧
    (refreshIter 20 true (fun _ => some "fresh") ⟨"cur", some "pend", true⟩).activatedNow
      = some "pend" ∧
    (refreshIter 500 false (fun _ => some "fresh") ⟨"cur", some "pend", true⟩).activatedNow
      = some "pend" :=
  ⟨(safe_swap_rule 100 (fun _ => some "fresh") ⟨"cur", some "pend", true⟩ rfl
      (by decide)).1 (by norm_num [SWAP_CUTOFF]),
    ((safe_swap_rule 20 (fun _ => some "fresh") ⟨"cur", some "pend", true⟩ rfl
      (by decide)).2.1 (by norm_num [SWAP_CUTOFF])).1,
    (safe_swap_rule 500 (fun _ => some "fresh") ⟨"cur", some "pend", true⟩ rfl
      (by decide)).2.2.1⟩

/-- C5: in start detection, `consecutive_high` gains one frame-duration on a
frame with rms above the effective threshold and otherwise loses half a
frame-duration, never going below zero; and the run emits exactly one start
event, at the first frame whose updated counter reaches
`min_duration_above_threshold`, or none if the counter never reaches it. -/
theorem start_detection_onset (effThr minDur c r : ℚ) (frames : List ℚ) :
    (effThr < r → startStep effThr c r = c + 1) ∧
    (¬ effThr < r → startStep effThr c r = max 0 (c - 1 / 2)) ∧
    (0 ≤ c → 0 ≤ startStep effThr c r) ∧
    (runStart effThr minDur frames).events ≤ 1 ∧
    ((runStart effThr minDur frames).fired = true →
      (runStart effThr minDur frames).events = 1 ∧
      ∃ i < frames.length,
        (runStart effThr minDur frames).consumed = i + 1 ∧
        minDur ≤ stateAfter (startStep effThr) 0 (frames.take (i + 1)) ∧
        ∀ j < i, stateAfter (startStep effThr) 0 (frames.take (j + 1)) < minDur) ∧
    ((runStart effThr minDur frames).fired = false →
      (runStart effThr minDur frames).events = 0 ∧
      ∀ n < frames.length, stateAfter (startStep effThr) 0 (frames.take (n + 1)) < minDur) := by
  have hdef : runStart effThr minDur frames
      = detectRun (startStep effThr) (fun x => decide (minDur ≤ x)) 5 0 frames := rfl
  obtain ⟨hno, hyes⟩ :=
    detectRun_spec (startStep effThr) (fun x => decide (minDur ≤ x)) 5 (0 : ℚ) frames
  refine ⟨?_, ?_, ?_, ?_, ?_, ?_⟩
  · intro h
    simp [startStep, h]
  · intro h
    simp [startStep, h]
  · intro h
    rw [startStep]
    by_cases hr : effThr < r
    · rw [if_pos hr]
      linarith
    · rw [if_neg hr]
      exact le_max_left 0 _
  · rw [hdef]
    rcases hf : (detectRun (startStep effThr) (fun x => decide (minDur ≤ x)) 5 (0 : ℚ)
        frames).fired with _ | _
    · simp [(hno hf).1]
    · exact ((hyes hf).1).le
  · rw [hdef]
    intro hf
    obtain ⟨he, i, hi, hc, ht, _, hall⟩ := hyes hf
    refine ⟨he, i, hi, hc, ?_, ?_⟩
    · simpa using ht
    · intro j hj
      simpa [not_le] using hall j hj
  · rw [hdef]
    intro hf
    obtain ⟨he, _, hall⟩ := hno hf
    refine ⟨he, ?_⟩
    intro n hn
    simpa [not_le] using hall n hn

theorem start_detection_onset_witness :
    startStep (1 / 50) 0 (1 / 5) = 0 + 1 ∧
    (runStart (1 / 50) 2 [1 / 100, 1 / 5, 1 / 5, 1 / 5]).events = 1 :=
  ⟨(start_detection_onset (1 / 50) 2 0 (1 / 5) [1 / 100, 1 / 5, 1 / 5, 1 / 5]).1
      (by norm_num),
    ((start_detection_onset (1 / 50) 2 0 (1 / 5) [1 / 100, 1 / 5, 1 / 5, 1 / 5]).2.2.2.2.1
      (by norm_num [runStart, detectRun, startStep])).1⟩

/-- C6 counterexample: with the bootstrap ambient RMS (0.0003) and the
default threshold parameter (0.05), `detect_audio_start` computes
`max(0.0009, 0.05 * 0.4) = 0.02`, while the claimed formula
`max(ambient * 3, 0.05)` gives 0.05 — the floor in the code is
`threshold * 0.4 = 0.02`, not 0.05. -/
theorem threshold_floor_counterexample :
    effective_threshold ambientInitRms defaultThreshold = 1 / 50 ∧
    effective_threshold_as_specified ambientInitRms = 1 / 20 ∧
    effective_threshold ambientInitRms defaultThreshold ≠
      effective_threshold_as_specified ambientInitRms := by
  refine ⟨?_, ?_, ?_⟩ <;>
    norm_num [effective_threshold, effective_threshold_as_specified, ambientInitRms,
      defaultThreshold, max_def]

/-- C6 amended: on entry to start detection the threshold used for every
frame comparison equals `max(ambient_rms * 3, threshold * 0.4)` — floor
0.02 at the default threshold 0.05 — with `ambient_rms` defaulting to the
conservative bootstrap 0.0003 before any ambient sample exists. -/
theorem effective_threshold_amended (a t c r : ℚ) (frames : List ℚ) :
    runStart (effective_threshold a t) 2 frames
      = detectRun (startStep (max (a * 3) (t * (2 / 5)))) (fun x => decide ((2 : ℚ) ≤ x))
          5 0 frames ∧
    (max (a * 3) (t * (2 / 5)) < r →
      startStep (effective_threshold a t) c r = c + 1) ∧
    (¬ max (a * 3) (t * (2 / 5)) < r →
      startStep (effective_threshold a t) c r = max 0 (c - 1 / 2)) ∧
    effective_threshold ambientInitRms defaultThreshold = 1 / 50 := by
  refine ⟨rfl, ?_, ?_,
    by norm_num [effective_threshold, ambientInitRms, defaultThreshold, max_def]⟩
  · intro h
    simp [startStep, effective_threshold, h]
  · intro h
    simp [startStep, effective_threshold, h]

theorem effective_threshold_amended_witness :
    startStep (effective_threshold ambientInitRms defaultThreshold) 0 (1 / 5) = 0 + 1 :=
  (effective_threshold_amended ambientInitRms defaultThreshold 0 (1 / 5) []).2.1
    (by norm_num [ambientInitRms, defaultThreshold, max_def])

/-- C7 counterexample: in `detect_audio_end` the silence test is
`rms < threshold` with the raw parameter (default 0.05), not
`rms < effective_threshold * 0.5`: a frame with rms 0.03 increments the
silence counter although 0.03 is not below
`effective_threshold * 0.5 = 0.01` (bootstrap ambient, default threshold). -/
theorem end_silence_condition_counterexample :
    endStep defaultThreshold 0 (3 / 100) = 1 ∧
    ¬ ((3 : ℚ) / 100 < effective_threshold ambientInitRms defaultThreshold * (1 / 2)) := by
  constructor
  · norm_num [endStep, defaultThreshold]
  · norm_num [effective_threshold, ambientInitRms, defaultThreshold, max_def]

/-- C7 amended: during end detection the silence counter is incremented
exactly when `rms < threshold` (the fixed silence-threshold parameter,
default 0.05) and reset to zero otherwise; once it reaches
`required_silence` (default 7) exactly one end event is emitted and a short
tail (up to 5 further chunks) is read; and in the spec-modelled coordination
machine the end event clears `adhaan_active`. -/
theorem end_detection_amended (thr : ℚ) (req : ℕ) (s : ℕ) (r : ℚ) (frames : List ℚ) :
    (r < thr → endStep thr s r = s + 1) ∧
    (¬ r < thr → endStep thr s r = 0) ∧
    ((runEnd thr req frames).fired = true →
      (runEnd thr req frames).events = 1 ∧
      ∃ i < frames.length,
        (runEnd thr req frames).consumed = i + 1 ∧
        req ≤ stateAfter (endStep thr) 0 (frames.take (i + 1)) ∧
        (runEnd thr req frames).tail = min 5 (frames.length - (i + 1)) ∧
        ∀ j < i, stateAfter (endStep thr) 0 (frames.take (j + 1)) < req) ∧
    ((runEnd thr req frames).fired = false →
      (runEnd thr req frames).events = 0 ∧
      ∀ n < frames.length, stateAfter (endStep thr) 0 (frames.take (n + 1)) < req) ∧
    (coordStep ⟨some SessionPhase.recording, true⟩ CoordEvent.endDetected).adhaanActive
      = false := by
  have hdef : runEnd thr req frames
      = detectRun (endStep thr) (fun x => decide (req ≤ x)) 5 0 frames := rfl
  obtain ⟨hno, hyes⟩ :=
    detectRun_spec (endStep thr) (fun x => decide (req ≤ x)) 5 (0 : ℕ) frames
  refine ⟨?_, ?_, ?_, ?_, rfl⟩
  · intro h
    simp [endStep, h]
  · intro h
    simp [endStep, h]
  · rw [hdef]
    intro hf
    obtain ⟨he, i, hi, hc, ht, htl, hall⟩ := hyes hf
    refine ⟨he, i, hi, hc, ?_, htl, ?_⟩
    · simpa using ht
    · intro j hj
      simpa [Nat.not_le] using hall j hj
  · rw [hdef]
    intro hf
    obtain ⟨he, _, hall⟩ := hno hf
    refine ⟨he, ?_⟩
    intro n hn
    simpa [Nat.not_le] using hall n hn

theorem end_detection_amended_witness :
    endStep defaultThreshold 0 0 = 0 + 1 ∧
    (runEnd defaultThreshold 7 [0, 0, 0, 0, 0, 0, 0, 0]).events = 1 :=
  ⟨(end_detection_amended defaultThreshold 7 0 0 [0, 0, 0, 0, 0, 0, 0, 0]).1
      (by norm_num [defaultThreshold]),
    ((end_detection_amended defaultThreshold 7 0 0 [0, 0, 0, 0, 0, 0, 0, 0]).2.2.1
      (by norm_num [runEnd, detectRun, endStep, defaultThreshold])).1⟩

/-- After any `start(url)`, the process slot is live and bound to `url`. -/
theorem playbackStart_ensures (s : PlaybackState) (e : String) :
    (playbackStart s e).1.procAlive = true ∧ (playbackStart s e).1.currentUrl = some e := by
  by_cases h : s.procAlive = true ∧ s.currentUrl = some e
  · rw [playbackStart, if_pos h]
    exact h
  · rw [playbackStart, if_neg h]
    exact ⟨rfl, rfl⟩

/-- C8: `PlaybackManager.start` keeps at most one live playback process: a
second `start` with the same endpoint while live is a no-op (leaving exactly
one live process), a `start` while live on the same endpoint returns without
touching the process, and a `start` with a different endpoint stops the old
process before spawning the new one. -/
theorem playback_start_contract (s : PlaybackState) (e : String) :
    (playbackStart (playbackStart s e).1 e = ((playbackStart s e).1, []) ∧
      liveProcs (playbackStart s e).1 = 1) ∧
    (s.procAlive = true → s.currentUrl = some e → playbackStart s e = (s, [])) ∧
    (s.procAlive = true → s.currentUrl ≠ some e →
      (playbackStart s e).2 = [PlayAction.stopProc, PlayAction.spawn e] ∧
      (playbackStart s e).1 = ⟨true, some e, 0⟩) ∧
    liveProcs (playbackStart s e).1 ≤ 1 := by
  obtain ⟨ha, hu⟩ := playbackStart_ensures s e
  refine ⟨⟨?_, ?_⟩, ?_, ?_, ?_⟩
  · rw [playbackStart, if_pos ⟨ha, hu⟩]
  · simp [liveProcs, ha]
  · intro h1 h2
    rw [playbackStart, if_pos ⟨h1, h2⟩]
  · intro h1 h2
    have hneg : ¬ (s.procAlive = true ∧ s.currentUrl = some e) := fun hc => h2 hc.2
    constructor
    · simp [playbackStart, hneg, h1, h2]
    · simp [playbackStart, hneg]
  · simp [liveProcs, ha]

theorem playback_start_contract_witness :
    (playbackStart ⟨true, some "a", 0⟩ "b").2
        = [PlayAction.stopProc, PlayAction.spawn "b"] ∧
    (playbackStart ⟨true, some "a", 0⟩ "b").1 = ⟨true, some "b", 0⟩ :=
  (playback_start_contract ⟨true, some "a", 0⟩ "b").2.2.1 rfl (by decide)

/-- C9: the claim says no exception ever terminates the scheduler loop, in
particular not in a cycle that exits early on an empty prayer-time table.
In the code, that early exit is a `continue` inside the `try`, which runs
the `finally` block; the `finally` block's log message interpolates the
local variable `name`, which on a first cycle with an empty table has never
been assigned, so the `finally` block raises UnboundLocalError, which is not
caught and terminates the scheduler loop before the cooldown sleep.  Once
`name` has been bound by an earlier cycle, the cycle is contained. -/
theorem scheduler_first_cycle_crash :
    (schedulerCycle [] "Fajr" false none).crashed = true ∧
    (schedulerCycle [] "Fajr" false none).cooldownSlept = false ∧
    (schedulerCycle [] "Fajr" false none).cleanupRan = true ∧
    (schedulerCycle [] "Fajr" true none).crashed = true ∧
    (schedulerCycle [("Fajr", "05:30:00")] "Fajr" false none).crashed = false ∧
    (schedulerCycle [] "Fajr" false (some "Maghrib")).crashed = false := by
  refine ⟨?_, ?_, ?_, ?_, ?_, ?_⟩ <;> rfl

/-- C10: `log_event` records a `duration_seconds` field equal to the time
elapsed since the most recent `start` exactly on an `end` event with a
stored start time, clearing the stored time (so a second consecutive `end`,
or an `end` with no preceding `start`, records an empty duration field),
while `start` events record an empty duration field and store their time. -/
theorem log_event_duration (st : Option ℚ) (t0 t : ℚ) :
    logStep st "start" t = (some t, none) ∧
    logStep (some t0) "end" t = (none, some (t - t0)) ∧
    logStep none "end" t = (none, none) ∧
    logTraceDurations none [("start", t0), ("end", t), ("end", t + 1)]
      = [none, some (t - t0), none] := by
  refine ⟨?_, ?_, ?_, ?_⟩
  · simp [logStep]
  · simp [logStep]
  · simp [logStep]
  · simp [logTraceDurations, logStep]

end AdhaanLive
